import Mathlib

/-!
Shallow embedding of the byte-streaming engine of `Thunder/utils/custom_dl.py`
(class `ByteStreamer`).  Byte values are modelled as `Nat`, byte strings as
`List Nat`.  The interaction of a coroutine with the backend is modelled by a
trace of responses consumed in order, one per backend call, so that the
functions below are pure transcriptions of the control flow of the source.
-/

namespace CustomDL

/-- Python slice `l[a:b]` on a list (clamping semantics of CPython slices). -/
def pySlice (a b : Nat) (l : List Nat) : List Nat := (l.drop a).take (b - a)

/-- One backend answer to a `GetFile` call issued by `yield_file`:
either an `upload.File` payload, a response of an unexpected type,
a raised `FloodWait(d)`, or a raised `RPCError`/`TimeoutError`. -/
inductive Response where
  | file (bytes : List Nat)
  | other
  | flood_wait (d : Nat)
  | rpc_error
deriving DecidableEq, Repr

/-- How the fetch loop of `yield_file` terminates.  `backendUnavailable` is
the error kind named by the specification; the source never produces it: on
`RPCError`/`TimeoutError` the source raises `web.HTTPInternalServerError`
(modelled by `httpInternalServerError`).  `outOfResponses` is a model
artifact for traces shorter than the execution needs. -/
inductive Outcome where
  | completed
  | emptyChunk
  | unexpectedType
  | httpInternalServerError
  | backendUnavailable
  | outOfResponses
deriving DecidableEq, Repr

/-- Observable result of the fetch loop: the `(offset, limit)` of every
`GetFile` issued, the sleeps performed in `except FloodWait` handlers
(each of duration `d + 1`), the buffers yielded, and the termination. -/
structure StreamResult where
  requests : List (Nat × Nat)
  sleeps : List Nat
  emitted : List (List Nat)
  outcome : Outcome
deriving DecidableEq, Repr

/-- The trim applied by `yield_file` to the chunk of part `current_part`
(lines 310-317 of `custom_dl.py`): `chunk[first_part_cut:last_part_cut]`
when `part_count == 1`, `chunk[first_part_cut:]` for the first of several
parts, `chunk[:last_part_cut]` for the last, the whole chunk otherwise. -/
def emitFor (part_count first_part_cut last_part_cut current_part : Nat)
    (chunk : List Nat) : List Nat :=
  if part_count = 1 then pySlice first_part_cut last_part_cut chunk
  else if current_part = 1 then chunk.drop first_part_cut
  else if current_part = part_count then chunk.take last_part_cut
  else chunk

/-- The `while current_part <= part_count` loop of `yield_file`
(lines 294-328 of `custom_dl.py`), one trace response per `GetFile` call:
a full answer emits the trimmed buffer and advances `current_part` and
`offset` by one part; a response of the wrong type or an empty payload
breaks out of the loop; `FloodWait(d)` sleeps `d + 1` and retries with
`current_part` and `offset` unchanged; `RPCError`/`TimeoutError` raises. -/
def yield_file_loop (first_part_cut last_part_cut part_count chunk_size : Nat)
    (responses : List Response) (current_part offset : Nat) : StreamResult :=
  if part_count < current_part then ⟨[], [], [], .completed⟩
  else
    match responses with
    | [] => ⟨[], [], [], .outOfResponses⟩
    | .file bytes :: rest =>
      if bytes = [] then ⟨[(offset, chunk_size)], [], [], .emptyChunk⟩
      else
        let r := yield_file_loop first_part_cut last_part_cut part_count chunk_size
          rest (current_part + 1) (offset + chunk_size)
        ⟨(offset, chunk_size) :: r.requests, r.sleeps,
          emitFor part_count first_part_cut last_part_cut current_part bytes :: r.emitted,
          r.outcome⟩
    | .other :: _ => ⟨[(offset, chunk_size)], [], [], .unexpectedType⟩
    | .flood_wait d :: rest =>
      let r := yield_file_loop first_part_cut last_part_cut part_count chunk_size
        rest current_part offset
      ⟨(offset, chunk_size) :: r.requests, (d + 1) :: r.sleeps, r.emitted, r.outcome⟩
    | .rpc_error :: _ => ⟨[(offset, chunk_size)], [], [], .httpInternalServerError⟩

/-- One iteration of `_authenticate_session` seen as a trace event: the
`ExportAuthorization`/`ImportAuthorization` pair succeeds, or raises
`AuthBytesInvalid`, `FloodWait(d)` or a generic `RPCError`. -/
inductive AuthEvent where
  | success
  | auth_bytes_invalid
  | flood_wait (d : Nat)
  | rpc_error
deriving DecidableEq, Repr

/-- How `_authenticate_session` terminates: a successful import returns;
the third `AuthBytesInvalid` stops the session and re-raises; exhausting
the three-iteration `for` loop falls off its end and returns normally
without having authorized anything.  `out_of_events` is a model artifact
for traces shorter than the execution needs. -/
inductive AuthOutcome where
  | authorized
  | auth_failed_raised
  | exhausted
  | out_of_events
deriving DecidableEq, Repr

/-- Observable result of `_authenticate_session`: the termination, whether
`session.stop()` was called, and the sleeps performed in the `except`
handlers (2 s before the final re-raise, `d + 1` on `FloodWait(d)`,
1 s on a generic `RPCError`). -/
structure AuthResult where
  outcome : AuthOutcome
  session_stopped : Bool
  sleeps : List Nat
deriving DecidableEq, Repr

/-- The body of the `for attempt in range(3)` loop of
`_authenticate_session` (lines 161-190 of `custom_dl.py`), starting at
iteration `attempt`, consuming one trace event per iteration.  Every
handler except the final-failure one falls through to the next iteration
of the `for` loop, so `FloodWait` and `RPCError` consume an iteration
exactly as `AuthBytesInvalid` does. -/
def auth_attempts (attempt : Nat) (events : List AuthEvent) : AuthResult :=
  if 3 ≤ attempt then ⟨.exhausted, false, []⟩
  else
    match events with
    | [] => ⟨.out_of_events, false, []⟩
    | .success :: _ => ⟨.authorized, false, []⟩
    | .auth_bytes_invalid :: rest =>
      if attempt = 2 then ⟨.auth_failed_raised, true, [2]⟩
      else auth_attempts (attempt + 1) rest
    | .flood_wait d :: rest =>
      let r := auth_attempts (attempt + 1) rest
      ⟨r.outcome, r.session_stopped, (d + 1) :: r.sleeps⟩
    | .rpc_error :: rest =>
      let r := auth_attempts (attempt + 1) rest
      ⟨r.outcome, r.session_stopped, 1 :: r.sleeps⟩

/-- `_authenticate_session` runs the loop from `attempt = 0`. -/
def authenticate_session (events : List AuthEvent) : AuthResult :=
  auth_attempts 0 events

/-- Trace events that the `for` loop of `_authenticate_session` retries
after a sleep: flood-control and generic RPC errors. -/
def retryable (e : AuthEvent) : Prop :=
  e = .rpc_error ∨ ∃ d, e = .flood_wait d

/-- Observable result of `generate_media_session`: the media-session map
afterwards, the session returned (`none` when an exception propagated),
how many `Auth.create()` calls were issued, and whether the fresh session
was stopped again. -/
structure SessionPoolResult where
  media_sessions : List (Nat × Nat)
  returned : Option Nat
  auth_creates : Nat
  session_stopped : Bool
deriving DecidableEq, Repr

/-- `generate_media_session` (lines 83-97 of `custom_dl.py`), with sessions
named by numbers and the per-client map `client.media_sessions` as an
association list.  On a hit the cached session is returned.  On a miss,
`_create_or_reuse_media_session` either reuses the stored auth key
(same-DC path, no `Auth.create()`), or performs `Auth.create()` and runs
`_authenticate_session` on the trace `events`; only a re-raised
`AuthBytesInvalid` aborts the caching assignment on line 96. -/
def generate_media_session (media_sessions : List (Nat × Nat))
    (dc_id client_dc_id new_session : Nat) (events : List AuthEvent) :
    SessionPoolResult :=
  match media_sessions.lookup dc_id with
  | some s => ⟨media_sessions, some s, 0, false⟩
  | none =>
    if dc_id = client_dc_id then
      ⟨(dc_id, new_session) :: media_sessions, some new_session, 0, false⟩
    else
      let a := authenticate_session events
      match a.outcome with
      | .auth_failed_raised => ⟨media_sessions, none, 1, a.session_stopped⟩
      | _ => ⟨(dc_id, new_session) :: media_sessions, some new_session, 1, a.session_stopped⟩

/-- Observable result of a whole `yield_file` call: the final value of
`work_loads[index]` and, when the fetch loop was reached, its result. -/
structure YieldResult where
  work_load : Int
  stream : Option StreamResult
deriving DecidableEq, Repr

/-- `yield_file` (lines 261-334 of `custom_dl.py`): `work_loads[index]` is
incremented first (line 286), then `generate_media_session` runs *outside*
the `try`/`finally` (line 289); if it raises, the generator dies before
the `finally` of line 330 exists, so the decrement never runs.  When it
returns a session, the fetch loop runs inside the `try` and the `finally`
decrements the counter on every termination of the loop. -/
def yield_file (media_sessions : List (Nat × Nat))
    (dc_id client_dc_id new_session : Nat) (auth_events : List AuthEvent)
    (responses : List Response) (work_load : Int)
    (offset first_part_cut last_part_cut part_count chunk_size : Nat) :
    YieldResult :=
  let w := work_load + 1
  let pool := generate_media_session media_sessions dc_id client_dc_id new_session auth_events
  match pool.returned with
  | none => ⟨w, none⟩
  | some _ =>
    ⟨w - 1, some (yield_file_loop first_part_cut last_part_cut part_count chunk_size
      responses 1 offset)⟩

/-- One pass of the body of `clean_cache` (lines 340-343 of
`custom_dl.py`): under the cache lock, `cached_file_ids.clear()`. -/
def clean_cache_sweep (_cached_file_ids : List (Nat × Nat)) : List (Nat × Nat) := []

/-!
Cooperative-interleaving model of two concurrent first calls to
`generate_media_session` for the same cross-DC `dc_id` on one worker.
The source guards nothing: line 93 reads `client.media_sessions` without a
lock, the `await` on line 95 is a suspension point, and line 96 writes the
map.  Each task is therefore a three-step program — read the map entry,
create (the `await _create_or_reuse_media_session` region, where
`Auth.create()` is issued), write the map entry and return the session —
and a schedule interleaves the steps of the two tasks.
-/

/-- Program counter and return value of one task running
`generate_media_session`: `step` 0 = about to read the map (line 93),
1 = inside the awaited creation (lines 95, 137-146), 2 = about to write
the map (line 96), 3 = returned. -/
structure TaskState where
  step : Nat
  ret : Option Nat
deriving DecidableEq, Repr

/-- Shared state of the two-task interleaving: the map entry for the one
`dc_id` in play, both task states, and the number of `Auth.create()`
calls issued so far. -/
structure PoolState where
  entry : Option Nat
  t0 : TaskState
  t1 : TaskState
  auth_creates : Nat
deriving DecidableEq, Repr

/-- One atomic step of a task running `generate_media_session`, where
`fresh` is the session this task would construct in
`_create_media_session`.  Returns the new map entry, the new
`Auth.create()` count and the new task state. -/
def task_step (entry : Option Nat) (creates : Nat) (t : TaskState)
    (fresh : Nat) : Option Nat × Nat × TaskState :=
  match t.step with
  | 0 =>
    match entry with
    | some s => (entry, creates, ⟨3, some s⟩)
    | none => (entry, creates, ⟨1, none⟩)
  | 1 => (entry, creates + 1, ⟨2, none⟩)
  | 2 => (some fresh, creates, ⟨3, some fresh⟩)
  | _ => (entry, creates, t)

/-- Run a schedule (`false` steps task 0, `true` steps task 1) from a pool
state; `s0`, `s1` are the fresh sessions the two tasks would construct. -/
def run_schedule (s0 s1 : Nat) : List Bool → PoolState → PoolState
  | [], st => st
  | b :: rest, st =>
    if b then
      let r := task_step st.entry st.auth_creates st.t1 s1
      run_schedule s0 s1 rest ⟨r.1, st.t0, r.2.2, r.2.1⟩
    else
      let r := task_step st.entry st.auth_creates st.t0 s0
      run_schedule s0 s1 rest ⟨r.1, r.2.2, st.t1, r.2.1⟩

/-- Both tasks at their first step, the session map holding no entry for
the datacenter (its first use), no `Auth.create()` issued yet. -/
def init_pool : PoolState := ⟨none, ⟨0, none⟩, ⟨0, none⟩, 0⟩

/-- The buffers emitted by a run of the fetch loop of `yield_file`
started, as in the source, at `current_part = 1`. -/
def emitted_buffers (first_part_cut last_part_cut part_count chunk_size : Nat)
    (responses : List Response) (offset : Nat) : List (List Nat) :=
  (yield_file_loop first_part_cut last_part_cut part_count chunk_size
    responses 1 offset).emitted

/-- The trimmed buffers of consecutive parts, part by part from
`current_part`, one per chunk. -/
def expected_emission (part_count first_part_cut last_part_cut : Nat) :
    Nat → List (List Nat) → List (List Nat)
  | _, [] => []
  | current_part, chunk :: rest =>
    emitFor part_count first_part_cut last_part_cut current_part chunk ::
      expected_emission part_count first_part_cut last_part_cut (current_part + 1) rest

/-!
Helper lemmas about the fetch loop.
-/

/-- Once `current_part` exceeds `part_count`, the loop stops without
issuing a request. -/
theorem yield_file_loop_done (fc lc pc cs cp off : Nat) (responses : List Response)
    (h : pc < cp) :
    yield_file_loop fc lc pc cs responses cp off = ⟨[], [], [], .completed⟩ := by
  rw [yield_file_loop.eq_def]
  simp [h]

/-- On a run against full-file responses, the loop emits exactly the
per-part trims. -/
theorem yield_file_loop_emitted_files (fc lc pc cs : Nat) (chunks : List (List Nat)) :
    ∀ cp off, (∀ ch ∈ chunks, ch.length = cs) → 0 < cs →
      cp + chunks.length = pc + 1 →
      (yield_file_loop fc lc pc cs (chunks.map Response.file) cp off).emitted
        = expected_emission pc fc lc cp chunks := by
  induction chunks with
  | nil =>
    intro cp off _ _ hlen
    have h : pc < cp := by simp at hlen; omega
    rw [yield_file_loop_done fc lc pc cs cp off _ h]
    simp [expected_emission]
  | cons ch rest ih =>
    intro cp off hall hc hlen
    have hch : ch.length = cs := hall ch (by simp)
    have hne : ¬ ch = [] := by
      intro h
      rw [h] at hch
      simp at hch
      omega
    have h : ¬ pc < cp := by simp at hlen; omega
    rw [List.map_cons, yield_file_loop.eq_def]
    simp only [h, if_false, expected_emission, if_neg hne]
    refine congrArg₂ _ rfl ?_
    exact ih (cp + 1) (off + cs) (fun x hx => hall x (List.mem_cons_of_mem _ hx)) hc
      (by simp at hlen ⊢; omega)

/-- Index-wise description of the per-part trims. -/
theorem expected_emission_get (pc fc lc : Nat) (chunks : List (List Nat)) :
    ∀ cp i, (expected_emission pc fc lc cp chunks).get? i
      = (chunks.get? i).map (fun ch => emitFor pc fc lc (cp + i) ch) := by
  induction chunks with
  | nil => intro cp i; simp [expected_emission]
  | cons ch rest ih =>
    intro cp i
    cases i with
    | zero => simp [expected_emission]
    | succ j =>
      have := ih (cp + 1) j
      simp only [expected_emission, List.get?_cons_succ, this]
      have harith : cp + 1 + j = cp + (j + 1) := by omega
      rw [harith]

/-- Every `GetFile` request the loop issues carries the limit
`chunk_size` and an offset reached from the starting offset by whole
chunk steps. -/
theorem yield_file_loop_requests (fc lc pc cs : Nat) (responses : List Response) :
    ∀ cp off q, q ∈ (yield_file_loop fc lc pc cs responses cp off).requests →
      (∃ k, q.1 = off + k * cs) ∧ q.2 = cs := by
  induction responses with
  | nil =>
    intro cp off q hq
    rw [yield_file_loop.eq_def] at hq
    by_cases h : pc < cp <;> simp [h] at hq
  | cons r rest ih =>
    intro cp off q hq
    rw [yield_file_loop.eq_def] at hq
    by_cases h : pc < cp
    · simp [h] at hq
    · cases r with
      | file bytes =>
        by_cases hb : bytes = []
        · simp [h, hb] at hq
          subst hq
          exact ⟨⟨0, by simp⟩, rfl⟩
        · simp [h, hb] at hq
          rcases hq with rfl | hq
          · exact ⟨⟨0, by simp⟩, rfl⟩
          · obtain ⟨⟨k, hk⟩, h2⟩ := ih (cp + 1) (off + cs) q hq
            refine ⟨⟨k + 1, ?_⟩, h2⟩
            rw [hk]
            ring
      | other =>
        simp [h] at hq
        subst hq
        exact ⟨⟨0, by simp⟩, rfl⟩
      | flood_wait d =>
        simp [h] at hq
        rcases hq with rfl | hq
        · exact ⟨⟨0, by simp⟩, rfl⟩
        · exact ih cp off q hq
      | rpc_error =>
        simp [h] at hq
        subst hq
        exact ⟨⟨0, by simp⟩, rfl⟩

/-- After its three iterations, the `for` loop of
`_authenticate_session` falls off its end whatever events remain. -/
theorem auth_attempts_exhausted (a : Nat) (events : List AuthEvent) (h : 3 ≤ a) :
    auth_attempts a events = ⟨.exhausted, false, []⟩ := by
  rw [auth_attempts.eq_def]
  simp [h]

/-!
Claim theorems.
-/

/-- C4 counterexample: on an `RPCError`/`TimeoutError` during a fetch, the
loop of `yield_file` does not fail with the transport-neutral
`BackendUnavailable` of the spec; it raises the HTTP-layer
`web.HTTPInternalServerError` (and the name `web` is not even imported by
`custom_dl.py`). -/
theorem C4_counterexample :
    (yield_file_loop 0 1 2 1 [.rpc_error] 1 0).outcome = .httpInternalServerError
  ∧ ¬ (yield_file_loop 0 1 2 1 [.rpc_error] 1 0).outcome = .backendUnavailable := by
  decide

/-- C4 amended: for every execution of the chunk-fetch loop in which a
`GetFile` call raises a transport/RPC error or a timeout, the stream
fails at once — no retry of that chunk, no further request — by raising
the HTTP-layer `web.HTTPInternalServerError` rather than a
transport-neutral `BackendUnavailable`. -/
theorem C4_rpc_error_fails_stream (fc lc pc cs cp off : Nat) (rest : List Response)
    (h : cp ≤ pc) :
    yield_file_loop fc lc pc cs (.rpc_error :: rest) cp off
      = ⟨[(off, cs)], [], [], .httpInternalServerError⟩ := by
  rw [yield_file_loop.eq_def]
  simp [Nat.not_lt.2 h]

/-- C4 witness at a concrete input. -/
theorem C4_witness :
    (1 : Nat) ≤ 3
  ∧ yield_file_loop 0 2 3 2 [.rpc_error, .file [1, 2]] 1 0
      = ⟨[(0, 2)], [], [], .httpInternalServerError⟩ :=
  ⟨by decide, C4_rpc_error_fails_stream 0 2 3 2 1 0 [.file [1, 2]] (by decide)⟩

/-- C6: when a `GetFile` raises `FloodWait(d)` during the loop, the
streamer records a sleep of `d + 1` seconds and re-issues an identical
fetch: the same offset with the same limit is requested next, and
`current_part` and `offset` are unchanged for the continuation, so the
emitted buffers (and the termination) are those of the execution whose
response trace lacks the flood-control signal. -/
theorem C6_flood_wait_retry (fc lc pc cs cp off d : Nat) (rest : List Response)
    (h : cp ≤ pc) :
    yield_file_loop fc lc pc cs (.flood_wait d :: rest) cp off
      = ⟨(off, cs) :: (yield_file_loop fc lc pc cs rest cp off).requests,
         (d + 1) :: (yield_file_loop fc lc pc cs rest cp off).sleeps,
         (yield_file_loop fc lc pc cs rest cp off).emitted,
         (yield_file_loop fc lc pc cs rest cp off).outcome⟩ := by
  rw [yield_file_loop.eq_def]
  simp [Nat.not_lt.2 h]

/-- C6 witness at a concrete input: a flood on the second chunk. -/
theorem C6_witness :
    (2 : Nat) ≤ 2
  ∧ yield_file_loop 1 2 2 2 [.flood_wait 2, .file [3, 4]] 2 2
      = ⟨(2, 2) :: (yield_file_loop 1 2 2 2 [.file [3, 4]] 2 2).requests,
         (2 + 1) :: (yield_file_loop 1 2 2 2 [.file [3, 4]] 2 2).sleeps,
         (yield_file_loop 1 2 2 2 [.file [3, 4]] 2 2).emitted,
         (yield_file_loop 1 2 2 2 [.file [3, 4]] 2 2).outcome⟩ :=
  ⟨by decide, C6_flood_wait_retry 1 2 2 2 2 2 2 [.file [3, 4]] (by decide)⟩

/-- C7: when the initial offset is a multiple of `chunk_size`, every
`GetFile` request the loop issues has an offset of the form
`initial_offset + k * chunk_size`, hence itself a multiple of
`chunk_size`, and carries the limit `chunk_size`. -/
theorem C7_request_alignment (fc lc pc cs off : Nat) (responses : List Response)
    (hoff : cs ∣ off) :
    ∀ q ∈ (yield_file_loop fc lc pc cs responses 1 off).requests,
      (∃ k, q.1 = off + k * cs) ∧ cs ∣ q.1 ∧ q.2 = cs := by
  intro q hq
  obtain ⟨⟨k, hk⟩, h2⟩ := yield_file_loop_requests fc lc pc cs responses 1 off q hq
  refine ⟨⟨k, hk⟩, ?_, h2⟩
  rw [hk]
  exact dvd_add hoff (dvd_mul_left cs k)

/-- C7 witness at a concrete input: the second request of a two-part
aligned stream. -/
theorem C7_witness :
    (2 : Nat) ∣ 4
  ∧ ((4 : Nat), (2 : Nat)) ∈
      (yield_file_loop 0 1 2 2 [.file [9, 9], .file [8, 8]] 1 2).requests
  ∧ ((∃ k, ((4 : Nat), (2 : Nat)).1 = 2 + k * 2)
      ∧ (2 : Nat) ∣ ((4 : Nat), (2 : Nat)).1 ∧ ((4 : Nat), (2 : Nat)).2 = 2) :=
  ⟨by decide, by decide,
    C7_request_alignment 0 1 2 2 2 [.file [9, 9], .file [8, 8]] (by decide) (4, 2) (by decide)⟩

/-- C8: one sweep empties the `cached_file_ids` mapping wholesale, and
running the sweep K times back-to-back, for any K at least 1, leaves it
empty (the sweep is idempotent and total, so it raises nothing). -/
theorem C8_sweep_idempotent (cache : List (Nat × Nat)) (K : Nat) (hK : 1 ≤ K) :
    clean_cache_sweep^[K] cache = [] := by
  cases K with
  | zero => omega
  | succ k =>
    rw [Function.iterate_succ_apply']
    rfl

/-- C8 witness at a concrete input. -/
theorem C8_witness :
    (1 : Nat) ≤ 2 ∧ clean_cache_sweep^[2] [(5, 9), (6, 10)] = [] :=
  ⟨by decide, C8_sweep_idempotent [(5, 9), (6, 10)] 2 (by decide)⟩

/-- C3 counterexample: with zero `AuthBytesInvalid` failures, three
flood-control signals exhaust the `for attempt in range(3)` loop of
`_authenticate_session` before the fourth, successful iteration the
claim promises is reached: flood-control events do consume attempts, and
the procedure gives up (falls off the loop) without authorizing. -/
theorem C3_counterexample :
    (authenticate_session [.flood_wait 2, .flood_wait 2, .flood_wait 2, .success]).outcome
      = .exhausted
  ∧ ¬ (authenticate_session
        [.flood_wait 2, .flood_wait 2, .flood_wait 2, .success]).outcome = .authorized
  ∧ List.count AuthEvent.auth_bytes_invalid
      [.flood_wait 2, .flood_wait 2, .flood_wait 2, .success] < 3 := by
  decide

/-- C3 amended: a `FloodWait(d)` during an iteration of
`_authenticate_session` sleeps `d + 1` seconds and a generic `RPCError`
sleeps 1 second, and each then falls through to the next iteration of the
same three-iteration loop: the retry consumes one of the three attempts,
the same budget `AuthBytesInvalid` draws on. -/
theorem C3_retry_consumes_attempt (a d : Nat) (rest : List AuthEvent) (h : a < 3) :
    auth_attempts a (.flood_wait d :: rest)
      = ⟨(auth_attempts (a + 1) rest).outcome, (auth_attempts (a + 1) rest).session_stopped,
         (d + 1) :: (auth_attempts (a + 1) rest).sleeps⟩
  ∧ auth_attempts a (.rpc_error :: rest)
      = ⟨(auth_attempts (a + 1) rest).outcome, (auth_attempts (a + 1) rest).session_stopped,
         1 :: (auth_attempts (a + 1) rest).sleeps⟩ := by
  constructor <;> (rw [auth_attempts.eq_def]; simp [Nat.not_le.2 h])

/-- C3 witness at a concrete input. -/
theorem C3_witness :
    (0 : Nat) < 3
  ∧ (auth_attempts 0 [.flood_wait 4]
      = ⟨(auth_attempts 1 []).outcome, (auth_attempts 1 []).session_stopped,
          (4 + 1) :: (auth_attempts 1 []).sleeps⟩
    ∧ auth_attempts 0 [.rpc_error]
      = ⟨(auth_attempts 1 []).outcome, (auth_attempts 1 []).session_stopped,
          1 :: (auth_attempts 1 []).sleeps⟩) :=
  ⟨by decide, C3_retry_consumes_attempt 0 4 [] (by decide)⟩

/-- C5: a cross-DC `generate_media_session` on a cache miss whose import
raises `AuthBytesInvalid` three times stops the session and lets the
exception propagate, writing no entry into the session map; with k at
most 2 such failures followed by a successful import it returns the new
session and caches it under the datacenter id. -/
theorem C5_three_failures_stop_no_cache (ms : List (Nat × Nat)) (dc cdc ns k : Nat)
    (rest rest2 : List AuthEvent)
    (hmiss : ms.lookup dc = none) (hdc : ¬ dc = cdc) :
    (generate_media_session ms dc cdc ns
        (.auth_bytes_invalid :: .auth_bytes_invalid :: .auth_bytes_invalid :: rest)
      = ⟨ms, none, 1, true⟩)
  ∧ (k ≤ 2 →
      generate_media_session ms dc cdc ns
          (List.replicate k .auth_bytes_invalid ++ .success :: rest2)
        = ⟨(dc, ns) :: ms, some ns, 1, false⟩) := by
  constructor
  · simp [generate_media_session, hmiss, hdc, authenticate_session, auth_attempts]
  · intro hk
    interval_cases k <;>
      simp [generate_media_session, hmiss, hdc, authenticate_session, auth_attempts,
        List.replicate]

/-- C5 witness at a concrete input. -/
theorem C5_witness :
    (List.lookup 2 ([] : List (Nat × Nat)) = none)
  ∧ ¬ (2 : Nat) = 1
  ∧ ((generate_media_session [] 2 1 7
        (.auth_bytes_invalid :: .auth_bytes_invalid :: .auth_bytes_invalid :: [])
        = ⟨[], none, 1, true⟩)
    ∧ ((1 : Nat) ≤ 2 →
        generate_media_session [] 2 1 7
            (List.replicate 1 .auth_bytes_invalid ++ .success :: [])
          = ⟨(2, 7) :: [], some 7, 1, false⟩)) :=
  ⟨by decide, by decide,
    C5_three_failures_stop_no_cache [] 2 1 7 1 [] [] (by decide) (by decide)⟩

/-- C10: when each of the three iterations of `_authenticate_session`
ends in a flood-control or generic RPC error, the loop is exhausted, the
coroutine returns normally without raising and without stopping the
session, and `generate_media_session` then caches and returns the
started-but-never-authorized session for that datacenter. -/
theorem C10_exhaustion_caches_session (ms : List (Nat × Nat)) (dc cdc ns : Nat)
    (e1 e2 e3 : AuthEvent) (rest : List AuthEvent)
    (h1 : retryable e1) (h2 : retryable e2) (h3 : retryable e3)
    (hmiss : ms.lookup dc = none) (hdc : ¬ dc = cdc) :
    (authenticate_session (e1 :: e2 :: e3 :: rest)).outcome = .exhausted
  ∧ (authenticate_session (e1 :: e2 :: e3 :: rest)).session_stopped = false
  ∧ generate_media_session ms dc cdc ns (e1 :: e2 :: e3 :: rest)
      = ⟨(dc, ns) :: ms, some ns, 1, false⟩ := by
  rcases h1 with rfl | ⟨d1, rfl⟩ <;> rcases h2 with rfl | ⟨d2, rfl⟩ <;>
    rcases h3 with rfl | ⟨d3, rfl⟩ <;>
    refine ⟨by simp [authenticate_session, auth_attempts, auth_attempts_exhausted],
      by simp [authenticate_session, auth_attempts, auth_attempts_exhausted],
      by simp [generate_media_session, hmiss, hdc, authenticate_session, auth_attempts,
        auth_attempts_exhausted]⟩

/-- C10 witness at a concrete input. -/
theorem C10_witness :
    retryable (.flood_wait 1)
  ∧ retryable .rpc_error
  ∧ (List.lookup 2 ([] : List (Nat × Nat)) = none)
  ∧ ¬ (2 : Nat) = 1
  ∧ ((authenticate_session [.flood_wait 1, .rpc_error, .flood_wait 3]).outcome = .exhausted
    ∧ (authenticate_session [.flood_wait 1, .rpc_error, .flood_wait 3]).session_stopped = false
    ∧ generate_media_session [] 2 1 7 [.flood_wait 1, .rpc_error, .flood_wait 3]
        = ⟨(2, 7) :: [], some 7, 1, false⟩) :=
  ⟨Or.inr ⟨1, rfl⟩, Or.inl rfl, by decide, by decide,
    C10_exhaustion_caches_session [] 2 1 7 (.flood_wait 1) .rpc_error (.flood_wait 3) []
      (Or.inr ⟨1, rfl⟩) (Or.inl rfl) (Or.inr ⟨3, rfl⟩) (by decide) (by decide)⟩

/-- C2 counterexample: an invocation of `yield_file` whose
`generate_media_session` raises (three `AuthBytesInvalid` failures on a
cross-DC cache miss) dies before the `try`/`finally` of the fetch loop is
entered: `work_loads[index]` was incremented on entry but is never
decremented, so after this termination the counter is 1, not its
pre-invocation value 0. -/
theorem C2_counterexample :
    (yield_file [] 2 1 7 [.auth_bytes_invalid, .auth_bytes_invalid, .auth_bytes_invalid]
        [] 0 0 0 1 1 1).work_load = 1
  ∧ ¬ (1 : Int) = 0 := by
  decide

/-- C2 amended: `work_loads[index]` is incremented on entry, and the
decrement in the `finally` block restores it on every termination of the
fetch loop — completion, early break on an empty chunk or an unexpected
response, a raised error, or caller cancellation at a yield — but only
when `generate_media_session` returned a session: that call sits before
the `try`, so when it raises, the counter stays incremented. -/
theorem C2_workload_restored (ms : List (Nat × Nat)) (dc cdc ns : Nat)
    (ev : List AuthEvent) (rs : List Response) (w : Int) (off fc lc pc cs : Nat)
    (h : (generate_media_session ms dc cdc ns ev).returned.isSome = true) :
    (yield_file ms dc cdc ns ev rs w off fc lc pc cs).work_load = w := by
  unfold yield_file
  rcases hp : (generate_media_session ms dc cdc ns ev).returned with _ | s
  · rw [hp] at h
    simp at h
  · simp only [hp]
    omega

/-- C2 witness at a concrete input: a session-map hit. -/
theorem C2_witness :
    (generate_media_session [(2, 5)] 2 1 7 []).returned.isSome = true
  ∧ (yield_file [(2, 5)] 2 1 7 [] [] 3 0 0 0 1 1).work_load = 3 :=
  ⟨by decide, C2_workload_restored [(2, 5)] 2 1 7 [] [] 3 0 0 0 1 1 (by decide)⟩

/-- C9 counterexample: `generate_media_session` guards nothing between
the map read of line 93 and the map write of line 96, and the creation in
between suspends; under the interleaving in which both first requests
read the empty map before either writes, each issues its own
`Auth.create()` — two in total, not exactly one — the two requests return
different sessions, and the second write overwrites the first. -/
theorem C9_counterexample :
    (run_schedule 10 11 [false, true, false, false, true, true] init_pool).auth_creates = 2
  ∧ (run_schedule 10 11 [false, true, false, false, true, true] init_pool).t0.ret = some 10
  ∧ (run_schedule 10 11 [false, true, false, false, true, true] init_pool).t1.ret = some 11
  ∧ ¬ (run_schedule 10 11 [false, true, false, false, true, true] init_pool).t0.ret
      = (run_schedule 10 11 [false, true, false, false, true, true] init_pool).t1.ret
  ∧ (run_schedule 10 11 [false, true, false, false, true, true] init_pool).entry = some 11 := by
  decide

/-- C9 amended: session creation is at-most-once only for
non-overlapping requests: when the first request completes its map write
before the second reads (the sequential schedule), exactly one
`Auth.create()` is issued, both requests observe the same session, and
that session is the one stored; under interleavings where both requests
read the map before either writes, each issues its own `Auth.create()`
and they can observe distinct sessions. -/
theorem C9_sequential_at_most_once (s0 s1 : Nat) :
    (run_schedule s0 s1 [false, false, false, true] init_pool).auth_creates = 1
  ∧ (run_schedule s0 s1 [false, false, false, true] init_pool).t0.ret = some s0
  ∧ (run_schedule s0 s1 [false, false, false, true] init_pool).t1.ret = some s0
  ∧ (run_schedule s0 s1 [false, false, false, true] init_pool).entry = some s0 := by
  refine ⟨rfl, rfl, rfl, rfl⟩

/-- C1: for a run of the fetch loop under the stated preconditions, with
every fetch answered by a chunk of exactly `chunk_size` bytes: when
`part_count = 1` the single emitted buffer is
`chunk[first_part_cut:last_part_cut]` with length
`last_part_cut - first_part_cut`; when `part_count > 1` the first buffer
is `chunk[first_part_cut:]` (its length plus `first_part_cut` is
`chunk_size`), every middle buffer is the whole chunk, and the last is
`chunk[:last_part_cut]` with length `last_part_cut`. -/
theorem C1_trim_identities (fc lc pc cs off : Nat) (chunks : List (List Nat))
    (hpc : 1 ≤ pc) (hfc : fc < cs) (hlc0 : 0 < lc) (hlc : lc ≤ cs)
    (hlen : chunks.length = pc) (hall : ∀ ch ∈ chunks, ch.length = cs) :
    (pc = 1 → ∀ ch, chunks = [ch] →
        emitted_buffers fc lc pc cs (chunks.map Response.file) off = [pySlice fc lc ch]
      ∧ (pySlice fc lc ch).length = lc - fc)
  ∧ (1 < pc →
        (∀ ch, chunks.get? 0 = some ch →
            (emitted_buffers fc lc pc cs (chunks.map Response.file) off).get? 0
              = some (ch.drop fc)
          ∧ (ch.drop fc).length + fc = cs)
      ∧ (∀ i, 0 < i → i + 1 < pc →
            (emitted_buffers fc lc pc cs (chunks.map Response.file) off).get? i
              = chunks.get? i)
      ∧ (∀ ch, chunks.get? (pc - 1) = some ch →
            (emitted_buffers fc lc pc cs (chunks.map Response.file) off).get? (pc - 1)
              = some (ch.take lc)
          ∧ (ch.take lc).length = lc)) := by
  have hcs : 0 < cs := Nat.lt_of_le_of_lt (Nat.zero_le fc) hfc
  have hE : emitted_buffers fc lc pc cs (chunks.map Response.file) off
      = expected_emission pc fc lc 1 chunks := by
    unfold emitted_buffers
    exact yield_file_loop_emitted_files fc lc pc cs chunks 1 off hall hcs (by omega)
  constructor
  · intro h1 ch hch
    subst h1
    have hchl : ch.length = cs := hall ch (by rw [hch]; simp)
    constructor
    · rw [hE, hch]
      simp [expected_emission, emitFor]
    · unfold pySlice
      rw [List.length_take, List.length_drop, hchl]
      omega
  · intro h1
    have hne1 : ¬ pc = 1 := by omega
    refine ⟨?_, ?_, ?_⟩
    · intro ch hch
      have hchl : ch.length = cs := hall ch (List.get?_mem hch)
      constructor
      · rw [hE, expected_emission_get pc fc lc chunks 1 0, hch]
        simp [emitFor, hne1]
      · rw [List.length_drop, hchl]
        omega
    · intro i h0 hip
      rw [hE, expected_emission_get pc fc lc chunks 1 i]
      cases hch : chunks.get? i with
      | none => simp
      | some ch =>
        have he : emitFor pc fc lc (1 + i) ch = ch := by
          unfold emitFor
          rw [if_neg hne1, if_neg (by omega), if_neg (by omega)]
        simp [he]
    · intro ch hch
      have hchl : ch.length = cs := hall ch (List.get?_mem hch)
      constructor
      · rw [hE, expected_emission_get pc fc lc chunks 1 (pc - 1), hch]
        have he : emitFor pc fc lc (1 + (pc - 1)) ch = ch.take lc := by
          have harith : 1 + (pc - 1) = pc := by omega
          rw [harith]
          unfold emitFor
          rw [if_neg hne1, if_neg (by omega), if_pos rfl]
        simp [he]
      · rw [List.length_take, hchl]
        omega

/-- C1 witness at a concrete input: a two-part stream over 2-byte
chunks, trimmed on both ends. -/
theorem C1_witness :
    ((emitted_buffers 1 2 2 2 (([[1, 2], [3, 4]] : List (List Nat)).map Response.file) 0).get? 0
        = some (([1, 2] : List Nat).drop 1)
      ∧ (([1, 2] : List Nat).drop 1).length + 1 = 2)
  ∧ ((emitted_buffers 1 2 2 2
        (([[1, 2], [3, 4]] : List (List Nat)).map Response.file) 0).get? (2 - 1)
        = some (([3, 4] : List Nat).take 2)
      ∧ (([3, 4] : List Nat).take 2).length = 2) :=
  ⟨((C1_trim_identities 1 2 2 2 0 [[1, 2], [3, 4]] (by decide) (by decide) (by decide)
      (by decide) (by decide) (by decide)).2 (by decide)).1 [1, 2] (by decide),
   ((C1_trim_identities 1 2 2 2 0 [[1, 2], [3, 4]] (by decide) (by decide) (by decide)
      (by decide) (by decide) (by decide)).2 (by decide)).2.2 [3, 4] (by decide)⟩

end CustomDL

